import Mathlib

/-!
Verification of the windowed result materializer of sqlitelite
(`nativeExecuteForCursorWindow` / `copyRow` in
`sqlite-android/src/main/jni/sqlite/SQLiteNative.cpp` and the identical copy in
`android_database_SQLiteConnection.cpp`), together with the scalar and pragma
execution helpers (`nativeExecuteForLongAndReset`, `nativeExecutePragma`).

The stepping cursor (an `sqlite3_stmt`) is embedded as the list of outcomes
that successive `sqlite3_step` calls report: each element is a row, a
busy/locked report, or an engine error; the end of the list is `SQLITE_DONE`.

The `CursorWindow` class itself is not part of this repository (only its
callers are), so the Window Buffer is modelled from the spec: a fixed-capacity
region in which allocating a row costs a per-row field-directory entry and
each text/blob payload costs its length, and every allocation fails exactly
when it would exceed the capacity.
-/

namespace SqliteLite

/-- A column value as read from the cursor: the five supported runtime type
tags of `copyRow`, plus `unknown` for any other tag. -/
inductive ColVal where
  | nul
  | intg (v : Int)
  | flt (bits : Nat)
  | text (s : List Char)
  | blob (b : List Nat)
  | unknown (tag : Nat)
deriving DecidableEq, Repr

/-- Space a value's payload takes in the window.  Text is stored with its
terminating NUL (`sizeIncludingNull` in `copyRow`); null/integer/float live in
the field slot that the row directory already paid for. -/
def ColVal.putSize : ColVal → Nat
  | .text s => s.length + 1
  | .blob b => b.length
  | _ => 0

/-- Whether the runtime type tag is one of the five `copyRow` handles. -/
def ColVal.supported : ColVal → Bool
  | .unknown _ => false
  | _ => true

abbrev RowVals := List ColVal

/-- Modelled from the spec: size of the per-row field directory that
`allocRow` reserves (one entry per declared column plus a row slot). -/
def rowDirSize (numColumns : Nat) : Nat := numColumns + 1

/-- Total payload size of a row's columns. -/
def payloadSize (cols : RowVals) : Nat := (cols.map ColVal.putSize).sum

/-- Full cost of storing one row: directory plus payloads. -/
def rowCost (numColumns : Nat) (cols : RowVals) : Nat :=
  rowDirSize numColumns + payloadSize cols

/-- Modelled from the spec: the Window Buffer (`CursorWindow`, external to
this repository).  `rows` lists the rows currently allocated, the last one
possibly still being filled by `copyRow`. -/
structure CursorWindow where
  capacity : Nat
  numColumns : Nat
  rows : List RowVals
deriving DecidableEq, Repr

/-- Bytes currently allocated: every allocated row has paid its directory
entry and the payloads written so far. -/
def usedSpace (w : CursorWindow) : Nat :=
  (w.rows.map (fun r => rowDirSize w.numColumns + payloadSize r)).sum

def CursorWindow.clear (w : CursorWindow) : CursorWindow :=
  { w with rows := [] }

def CursorWindow.setNumColumns (w : CursorWindow) (n : Nat) : CursorWindow :=
  { w with numColumns := n }

/-- `CursorWindow::allocRow`: reserve the field directory for one more row;
fails (returns `none`) when it does not fit. -/
def CursorWindow.allocRow (w : CursorWindow) : Option CursorWindow :=
  if usedSpace w + rowDirSize w.numColumns ≤ w.capacity then
    some { w with rows := w.rows ++ [[]] }
  else none

/-- One `putString`/`putLong`/`putDouble`/`putBlob`/`putNull` call: append the
value to the row being filled; fails when its payload does not fit. -/
def CursorWindow.putVal (w : CursorWindow) (v : ColVal) : Option CursorWindow :=
  if usedSpace w + v.putSize ≤ w.capacity then
    some { w with rows := w.rows.dropLast ++ [w.rows.getLastD [] ++ [v]] }
  else none

/-- `CursorWindow::freeLastRow`: release the row being filled. -/
def CursorWindow.freeLastRow (w : CursorWindow) : CursorWindow :=
  { w with rows := w.rows.dropLast }

/-- Result of `copyRow` (`enum CopyRowResult`). -/
inductive CopyRowResult where
  | CPR_OK
  | CPR_FULL
  | CPR_ERROR
deriving DecidableEq, Repr

/-- Outcome of the per-column loop of `copyRow`, carrying the window as the
loop left it (before any `freeLastRow`). -/
inductive ColsRes where
  | ok (w : CursorWindow)
  | full (w : CursorWindow)
  | error (w : CursorWindow)
deriving DecidableEq, Repr

/-- The window carried by a `ColsRes`. -/
def ColsRes.win : ColsRes → CursorWindow
  | .ok w => w
  | .full w => w
  | .error w => w

/-- The per-column loop of `copyRow`: read each column's type tag in
ascending order; a supported tag is written with the matching packer (failure
to fit is `full`), an unrecognized tag is a hard `error`. -/
def copyCols (w : CursorWindow) : RowVals → ColsRes
  | [] => .ok w
  | v :: rest =>
    if v.supported then
      match w.putVal v with
      | some w' => copyCols w' rest
      | none => .full w
    else .error w

/-- `copyRow`: allocate the field directory, pack every column, and free the
partially written row when the result is not `CPR_OK`. -/
def copyRow (w : CursorWindow) (cols : RowVals) : CopyRowResult × CursorWindow :=
  match w.allocRow with
  | none => (.CPR_FULL, w)
  | some w1 =>
    match copyCols w1 cols with
    | .ok w2 => (.CPR_OK, w2)
    | .full w2 => (.CPR_FULL, w2.freeLastRow)
    | .error w2 => (.CPR_ERROR, w2.freeLastRow)

/-- One `sqlite3_step` outcome; the end of the outcome list is `SQLITE_DONE`. -/
inductive StepOutcome where
  | row (cols : RowVals)
  | busy
  | err
deriving DecidableEq, Repr

/-- The distinct failures `nativeExecuteForCursorWindow` can raise. -/
inductive MatErr where
  | clearFailed
  | setColsFailed
  | unsupportedType
  | lockTimeout
  | engineErr
deriving DecidableEq, Repr

/-- Statuses the Window Buffer reports at the four call sites where
`nativeExecuteForCursorWindow` invokes `clear`/`setNumColumns`; a `true`
means that call fails (and then leaves the window unchanged).  The code
checks the two initial statuses and ignores the two recovery ones. -/
structure WinFaults where
  initClear : Bool
  initSetCols : Bool
  recClear : Bool
  recSetCols : Bool
deriving DecidableEq, Repr

def noFaults : WinFaults := ⟨false, false, false, false⟩

theorem noFaults_initClear : noFaults.initClear = false := rfl

theorem noFaults_initSetCols : noFaults.initSetCols = false := rfl

/-- The mutable locals of the materializer loop. -/
structure MatState where
  window : CursorWindow
  startPos : Nat
  retryCount : Nat
  totalRows : Nat
  addedRows : Nat
  windowFull : Bool
  err : Option MatErr
  sleeps : Nat
deriving DecidableEq, Repr

/-- The loop guard: `!gotException && (!windowFull || countAllRows)`
negated. -/
def matStop (countAllRows : Bool) (s : MatState) : Bool :=
  s.err.isSome || (s.windowFull && !countAllRows)

/-- The `if (cpr == CPR_OK) … else if (cpr == CPR_FULL) … else …` dispatch
that follows the (possibly recovered) `copyRow` call. -/
def applyCpr (p : CopyRowResult × CursorWindow) (s2 : MatState) : MatState :=
  match p with
  | (.CPR_OK, w) => { s2 with window := w, addedRows := s2.addedRows + 1 }
  | (.CPR_FULL, w) => { s2 with window := w, windowFull := true }
  | (.CPR_ERROR, w) => { s2 with window := w, err := some MatErr.unsupportedType }

/-- The encoding part of the `SQLITE_ROW` branch: `copyRow`, the one-shot
clear-and-restart recovery towards `requiredPos` (whose `clear` and
`setNumColumns` statuses the code ignores), then the result dispatch. -/
def stepRowEncode (numColumns requiredPos : Nat) (faults : WinFaults)
    (cols : RowVals) (s1 : MatState) : MatState :=
  let p0 := copyRow s1.window cols
  if p0.1 = CopyRowResult.CPR_FULL ∧ s1.addedRows ≠ 0 ∧
      s1.startPos + s1.addedRows ≤ requiredPos then
    let w1 := if faults.recClear then p0.2 else p0.2.clear
    let w2 := if faults.recSetCols then w1 else w1.setNumColumns numColumns
    applyCpr (copyRow w2 cols)
      { s1 with startPos := s1.startPos + s1.addedRows, addedRows := 0 }
  else applyCpr p0 s1

/-- The `SQLITE_ROW` branch of the loop body: bump the counters, skip rows
before `startPos` or after the window filled, otherwise encode. -/
def stepRow (numColumns requiredPos : Nat) (faults : WinFaults)
    (cols : RowVals) (s : MatState) : MatState :=
  let s1 : MatState := { s with retryCount := 0, totalRows := s.totalRows + 1 }
  if s1.startPos ≥ s1.totalRows ∨ s1.windowFull then s1
  else stepRowEncode numColumns requiredPos faults cols s1

/-- The materializer loop: step the cursor, dispatch on the outcome.  A busy
report past the retry ceiling raises the lock timeout; otherwise it sleeps
1 ms (counted in `sleeps`) and retries without advancing any counters. -/
def matLoop (numColumns requiredPos : Nat) (countAllRows : Bool)
    (faults : WinFaults) : List StepOutcome → MatState → MatState
  | [], s => s
  | o :: rest, s =>
    if matStop countAllRows s then s
    else
      match o with
      | .row cols =>
          matLoop numColumns requiredPos countAllRows faults rest
            (stepRow numColumns requiredPos faults cols s)
      | .busy =>
          if s.retryCount > 50 then
            matLoop numColumns requiredPos countAllRows faults rest
              { s with err := some MatErr.lockTimeout }
          else
            matLoop numColumns requiredPos countAllRows faults rest
              { s with retryCount := s.retryCount + 1, sleeps := s.sleeps + 1 }
      | .err =>
          matLoop numColumns requiredPos countAllRows faults rest
            { s with err := some MatErr.engineErr }

/-- Everything a call to the materializer leaves behind: the window contents,
the returned pair `(startPos, totalRows)`, the error (a pending exception),
whether `sqlite3_reset` was invoked, whether the statement was stepped at
all, and how many 1 ms retry sleeps were performed. -/
structure MatResult where
  window : CursorWindow
  startPos : Nat
  totalRows : Nat
  addedRows : Nat
  windowFull : Bool
  err : Option MatErr
  stmtReset : Bool
  stepped : Bool
  sleeps : Nat
deriving DecidableEq, Repr

/-- `nativeExecuteForCursorWindow`: clear the window and set its column count
(surfacing failures of either), run the loop, then reset the statement.  The
two early-abort paths return 0 without stepping or resetting the statement. -/
def nativeExecuteForCursorWindow (outcomes : List StepOutcome)
    (window0 : CursorWindow) (numColumns startPos requiredPos : Nat)
    (countAllRows : Bool) (faults : WinFaults) : MatResult :=
  if faults.initClear then
    { window := window0, startPos := 0, totalRows := 0, addedRows := 0,
      windowFull := false, err := some MatErr.clearFailed,
      stmtReset := false, stepped := false, sleeps := 0 }
  else
    let w1 := window0.clear
    if faults.initSetCols then
      { window := w1, startPos := 0, totalRows := 0, addedRows := 0,
        windowFull := false, err := some MatErr.setColsFailed,
        stmtReset := false, stepped := false, sleeps := 0 }
    else
      let w2 := w1.setNumColumns numColumns
      let sF := matLoop numColumns requiredPos countAllRows faults outcomes
        { window := w2, startPos := startPos, retryCount := 0, totalRows := 0,
          addedRows := 0, windowFull := false, err := none, sleeps := 0 }
      { window := sF.window, startPos := sF.startPos, totalRows := sF.totalRows,
        addedRows := sF.addedRows, windowFull := sF.windowFull, err := sF.err,
        stmtReset := true, stepped := true, sleeps := sF.sleeps }

/-- The distinguishing hard errors of the scalar single-value helpers. -/
inductive HelperErr where
  | expectedOneColumn
  | gotMoreThanOneRow
  | errorEvaluating
deriving DecidableEq, Repr

/-- `sqlite3_column_int64` on the modelled value; the engine's numeric
coercion of non-integer values is external and irrelevant to the claims. -/
def ColVal.asInt : ColVal → Int
  | .intg v => v
  | _ => 0

/-- What `nativeExecuteForLongAndReset` leaves behind: the returned value,
the pending exception if any, and whether `sqlite3_reset` was invoked. -/
structure LongResult where
  value : Int
  err : Option HelperErr
  stmtReset : Bool
deriving DecidableEq, Repr

/-- `nativeExecuteForLongAndReset`: step once; `SQLITE_DONE` yields the
caller's default, a row must have exactly one column and be followed by a
`SQLITE_DONE` second step, anything else is a hard error; the statement is
reset on every path before returning. -/
def nativeExecuteForLongAndReset (outcomes : List StepOutcome)
    (defaultValue : Int) : LongResult :=
  match outcomes with
  | [] => { value := defaultValue, err := none, stmtReset := true }
  | .row cols :: rest =>
    if cols.length ≠ 1 then
      { value := 0, err := some HelperErr.expectedOneColumn, stmtReset := true }
    else
      match rest with
      | [] => { value := (cols.headD .nul).asInt, err := none, stmtReset := true }
      | _ :: _ =>
        { value := (cols.headD .nul).asInt,
          err := some HelperErr.gotMoreThanOneRow, stmtReset := true }
  | .busy :: _ =>
    { value := 0, err := some HelperErr.errorEvaluating, stmtReset := true }
  | .err :: _ =>
    { value := 0, err := some HelperErr.errorEvaluating, stmtReset := true }

/-- The concatenation `nativeExecutePragma` builds from a produced row, the
row given as the text of each column.  The copy loop of the source calls
`memcpy(buffer + offset, sqlite3_column_text16(statement, 0), sizeBytes)`
with `sizeBytes` the byte length of column `c`, so every column contributes
the text of column 0 truncated or extended to column `c`'s length; when
column `c` is longer than column 0 the C++ reads past column 0's buffer
(undefined behaviour), which this model does not reproduce, so it is only
evaluated where every column is at most as long as column 0. -/
def pragmaRowConcat (row : List (List Char)) : List Char :=
  let totalLength := (row.map List.length).sum
  if totalLength = 0 then []
  else row.foldl (fun acc c => acc ++ (row.headD []).take c.length) []

/-- The concatenation the spec describes: each column's own text, in
ascending column order. -/
def pragmaRowConcatSpec (row : List (List Char)) : List Char :=
  row.foldl (fun acc c => acc ++ c) []

/-! ## Lemmas about the Row Encoder (`copyRow`) -/

theorem usedSpace_append (cap nc : Nat) (rs : List RowVals) (p : RowVals) :
    usedSpace ⟨cap, nc, rs ++ [p]⟩
      = usedSpace ⟨cap, nc, rs⟩ + (rowDirSize nc + payloadSize p) := by
  simp [usedSpace]

theorem payloadSize_append (p : RowVals) (v : ColVal) :
    payloadSize (p ++ [v]) = payloadSize p + v.putSize := by
  simp [payloadSize]

/-- The column loop never touches rows other than the one being filled, nor
the capacity or the column count. -/
theorem copyCols_preserves (cols : RowVals) :
    ∀ w : CursorWindow,
      (copyCols w cols).win.capacity = w.capacity ∧
      (copyCols w cols).win.numColumns = w.numColumns ∧
      (copyCols w cols).win.rows.dropLast = w.rows.dropLast := by
  induction cols with
  | nil => intro w; simp [copyCols, ColsRes.win]
  | cons v rest ih =>
    intro w
    simp only [copyCols]
    by_cases hs : v.supported
    · simp only [hs, if_true]
      cases hput : w.putVal v with
      | none => simp [ColsRes.win]
      | some w' =>
        have hw' : w'.capacity = w.capacity ∧ w'.numColumns = w.numColumns ∧
            w'.rows.dropLast = w.rows.dropLast := by
          simp only [CursorWindow.putVal] at hput
          split at hput
          · cases hput
            refine ⟨rfl, rfl, ?_⟩
            simp [List.dropLast_concat]
          · cases hput
        obtain ⟨h1, h2, h3⟩ := ih w'
        exact ⟨h1.trans hw'.1, h2.trans hw'.2.1, h3.trans hw'.2.2⟩
    · simp [hs, ColsRes.win]

/-- Success of the column loop: all tags supported and the payload fits. -/
theorem copyCols_ok (cols : RowVals) :
    ∀ (cap nc : Nat) (rs : List RowVals) (p : RowVals),
      cols.all ColVal.supported = true →
      usedSpace ⟨cap, nc, rs ++ [p]⟩ + payloadSize cols ≤ cap →
      copyCols ⟨cap, nc, rs ++ [p]⟩ cols = .ok ⟨cap, nc, rs ++ [p ++ cols]⟩ := by
  induction cols with
  | nil => intro cap nc rs p _ _; simp [copyCols]
  | cons v rest ih =>
    intro cap nc rs p hsup hfit
    simp only [List.all_cons, Bool.and_eq_true] at hsup
    simp only [copyCols, hsup.1, if_true]
    have hv : usedSpace ⟨cap, nc, rs ++ [p]⟩ + v.putSize ≤ cap := by
      have := hfit
      simp only [payloadSize, List.map_cons, List.sum_cons] at this
      omega
    have hput : CursorWindow.putVal ⟨cap, nc, rs ++ [p]⟩ v
        = some ⟨cap, nc, rs ++ [p ++ [v]]⟩ := by
      simp only [CursorWindow.putVal, hv, if_pos]
      simp [List.dropLast_concat, List.getLastD_concat]
    rw [hput]
    have hfit' : usedSpace ⟨cap, nc, rs ++ [p ++ [v]]⟩ + payloadSize rest ≤ cap := by
      rw [usedSpace_append, payloadSize_append]
      rw [usedSpace_append] at hfit
      simp only [payloadSize, List.map_cons, List.sum_cons] at hfit
      simp only [payloadSize] at hfit ⊢
      omega
    have hrec := ih cap nc rs (p ++ [v]) hsup.2 hfit'
    show copyCols ⟨cap, nc, rs ++ [p ++ [v]]⟩ rest = _
    rw [hrec]
    simp [List.append_assoc]

/-- Overflow of the column loop: all tags supported, the window not yet over
capacity, but the payload does not fit: some put fails and the loop reports
`full` with only the row being filled touched. -/
theorem copyCols_full (cols : RowVals) :
    ∀ (cap nc : Nat) (rs : List RowVals) (p : RowVals),
      cols.all ColVal.supported = true →
      usedSpace ⟨cap, nc, rs ++ [p]⟩ ≤ cap →
      cap < usedSpace ⟨cap, nc, rs ++ [p]⟩ + payloadSize cols →
      ∃ p', copyCols ⟨cap, nc, rs ++ [p]⟩ cols = .full ⟨cap, nc, rs ++ [p']⟩ := by
  induction cols with
  | nil =>
    intro cap nc rs p _ hle hlt
    simp only [payloadSize, List.map_nil, List.sum_nil, Nat.add_zero] at hlt
    omega
  | cons v rest ih =>
    intro cap nc rs p hsup hle hlt
    simp only [List.all_cons, Bool.and_eq_true] at hsup
    simp only [copyCols, hsup.1, if_true]
    by_cases hv : usedSpace ⟨cap, nc, rs ++ [p]⟩ + v.putSize ≤ cap
    · have hput : CursorWindow.putVal ⟨cap, nc, rs ++ [p]⟩ v
          = some ⟨cap, nc, rs ++ [p ++ [v]]⟩ := by
        simp only [CursorWindow.putVal, hv, if_pos]
        simp [List.dropLast_concat, List.getLastD_concat]
      rw [hput]
      show ∃ p', copyCols ⟨cap, nc, rs ++ [p ++ [v]]⟩ rest = _
      have hused : usedSpace ⟨cap, nc, rs ++ [p ++ [v]]⟩
          = usedSpace ⟨cap, nc, rs ++ [p]⟩ + v.putSize := by
        rw [usedSpace_append, usedSpace_append, payloadSize_append]
        omega
      apply ih cap nc rs (p ++ [v]) hsup.2
      · omega
      · simp only [payloadSize, List.map_cons, List.sum_cons] at hlt
        simp only [payloadSize] at hlt ⊢
        omega
    · have hput : CursorWindow.putVal ⟨cap, nc, rs ++ [p]⟩ v = none := by
        simp [CursorWindow.putVal, hv]
      rw [hput]
      exact ⟨p, rfl⟩

/-- A row containing an unrecognized type tag never completes: the loop
stops at the first unsupported tag (or earlier at a put that does not fit),
so the result is `full` or `error`, never `ok`. -/
theorem copyCols_not_ok_of_unsupported (cols : RowVals) :
    ∀ w : CursorWindow, cols.all ColVal.supported = false →
      (∃ w', copyCols w cols = .full w') ∨ (∃ w', copyCols w cols = .error w') := by
  induction cols with
  | nil => intro w h; simp at h
  | cons v rest ih =>
    intro w h
    simp only [copyCols]
    by_cases hs : v.supported
    · simp only [hs, if_true]
      have hrest : rest.all ColVal.supported = false := by
        simp only [List.all_cons, hs, Bool.true_and] at h
        exact h
      cases hput : w.putVal v with
      | none => exact Or.inl ⟨w, rfl⟩
      | some w' => exact ih w' hrest
    · simp only [hs, if_false]
      exact Or.inr ⟨w, rfl⟩

/-- A fully supported row never raises the hard error. -/
theorem copyCols_not_error_of_supported (cols : RowVals) :
    ∀ w : CursorWindow, cols.all ColVal.supported = true →
      ¬ ∃ w', copyCols w cols = .error w' := by
  induction cols with
  | nil => intro w _ h; obtain ⟨w', hw'⟩ := h; simp [copyCols] at hw'
  | cons v rest ih =>
    intro w h
    simp only [List.all_cons, Bool.and_eq_true] at h
    simp only [copyCols, h.1, if_true]
    cases hput : w.putVal v with
    | none => intro hc; obtain ⟨w', hw'⟩ := hc; cases hw'
    | some w' => exact ih w' h.2

/-- Success of the Row Encoder: a fully supported row whose full cost fits
the remaining space is appended whole. -/
theorem copyRow_ok_of_fits (w : CursorWindow) (cols : RowVals)
    (hsup : cols.all ColVal.supported = true)
    (hfit : usedSpace w + rowCost w.numColumns cols ≤ w.capacity) :
    copyRow w cols = (.CPR_OK, ⟨w.capacity, w.numColumns, w.rows ++ [cols]⟩) := by
  have halloc : w.allocRow = some ⟨w.capacity, w.numColumns, w.rows ++ [[]]⟩ := by
    have : usedSpace w + rowDirSize w.numColumns ≤ w.capacity := by
      simp only [rowCost] at hfit; omega
    simp [CursorWindow.allocRow, this]
  have hused : usedSpace ⟨w.capacity, w.numColumns, w.rows ++ [[]]⟩
      = usedSpace w + rowDirSize w.numColumns := by
    rw [usedSpace_append]
    simp [payloadSize]
  have hcols := copyCols_ok cols w.capacity w.numColumns w.rows []
    hsup (by simp only [rowCost] at hfit; omega)
  simp only [copyRow, halloc, hcols]
  simp

/-- Overflow of the Row Encoder: a fully supported row whose full cost does
not fit reports `CPR_FULL` and leaves the window exactly as it was. -/
theorem copyRow_full_of_overflow (w : CursorWindow) (cols : RowVals)
    (hsup : cols.all ColVal.supported = true)
    (hbig : w.capacity < usedSpace w + rowCost w.numColumns cols) :
    copyRow w cols = (.CPR_FULL, w) := by
  by_cases halloc : usedSpace w + rowDirSize w.numColumns ≤ w.capacity
  · have halloc' : w.allocRow = some ⟨w.capacity, w.numColumns, w.rows ++ [[]]⟩ := by
      simp [CursorWindow.allocRow, halloc]
    have hused : usedSpace ⟨w.capacity, w.numColumns, w.rows ++ [[]]⟩
        = usedSpace w + rowDirSize w.numColumns := by
      rw [usedSpace_append]; simp [payloadSize]
    obtain ⟨p', hfull⟩ := copyCols_full cols w.capacity w.numColumns w.rows []
      hsup (by omega) (by simp only [rowCost] at hbig; omega)
    simp only [copyRow, halloc', hfull, CursorWindow.freeLastRow]
    simp [List.dropLast_concat]
  · have : w.allocRow = none := by simp [CursorWindow.allocRow, halloc]
    simp [copyRow, this]

/-- Row-encoding atomicity at the level of `copyRow`: any non-`CPR_OK`
result restores the window (the partially allocated row is released). -/
theorem copyRow_not_ok_window (w : CursorWindow) (cols : RowVals)
    (h : (copyRow w cols).1 ≠ .CPR_OK) : (copyRow w cols).2 = w := by
  cases halloc : w.allocRow with
  | none => simp [copyRow, halloc]
  | some w1 =>
    have hw1 : w1 = ⟨w.capacity, w.numColumns, w.rows ++ [[]]⟩ := by
      simp only [CursorWindow.allocRow] at halloc
      split at halloc
      · cases halloc; rfl
      · cases halloc
    have hpres := copyCols_preserves cols w1
    have hdrop : w1.rows.dropLast = w.rows := by
      rw [hw1]; simp [List.dropLast_concat]
    cases hres : copyCols w1 cols with
    | ok w2 => simp [copyRow, halloc, hres] at h
    | full w2 =>
      have := hpres
      rw [hres] at this
      simp only [ColsRes.win] at this
      simp only [copyRow, halloc, hres, CursorWindow.freeLastRow]
      have hcap : w2.capacity = w.capacity := by rw [this.1, hw1]
      have hnc : w2.numColumns = w.numColumns := by rw [this.2.1, hw1]
      have hrows : w2.rows.dropLast = w.rows := by rw [this.2.2, hdrop]
      cases w with
      | mk cap nc rows => simp_all
    | error w2 =>
      have := hpres
      rw [hres] at this
      simp only [ColsRes.win] at this
      simp only [copyRow, halloc, hres, CursorWindow.freeLastRow]
      have hcap : w2.capacity = w.capacity := by rw [this.1, hw1]
      have hnc : w2.numColumns = w.numColumns := by rw [this.2.1, hw1]
      have hrows : w2.rows.dropLast = w.rows := by rw [this.2.2, hdrop]
      cases w with
      | mk cap nc rows => simp_all

/-- A row with an unrecognized type tag is never stored. -/
theorem copyRow_not_ok_of_unsupported (w : CursorWindow) (cols : RowVals)
    (h : cols.all ColVal.supported = false) :
    (copyRow w cols).1 ≠ .CPR_OK := by
  cases halloc : w.allocRow with
  | none => simp [copyRow, halloc]
  | some w1 =>
    rcases copyCols_not_ok_of_unsupported cols w1 h with ⟨w', hw'⟩ | ⟨w', hw'⟩ <;>
      simp [copyRow, halloc, hw']

/-- A fully supported row never raises the unsupported-type hard error. -/
theorem copyRow_not_error_of_supported (w : CursorWindow) (cols : RowVals)
    (h : cols.all ColVal.supported = true) :
    (copyRow w cols).1 ≠ .CPR_ERROR := by
  cases halloc : w.allocRow with
  | none => simp [copyRow, halloc]
  | some w1 =>
    cases hres : copyCols w1 cols with
    | ok w2 => simp [copyRow, halloc, hres]
    | full w2 => simp [copyRow, halloc, hres]
    | error w2 =>
      exact absurd ⟨w2, hres⟩ (copyCols_not_error_of_supported cols w1 h)

/-! ## Lemmas about the materializer loop -/

/-- Once the guard stops the loop, the state is final. -/
theorem matLoop_stopped (nc rp : Nat) (ca : Bool) (f : WinFaults)
    (outs : List StepOutcome) (s : MatState) (h : matStop ca s = true) :
    matLoop nc rp ca f outs s = s := by
  cases outs with
  | nil => rfl
  | cons o rest => simp [matLoop, h]

/-- The loop guard only looks at the state, so consuming the outcome list in
two stages gives the same final state. -/
theorem matLoop_append (nc rp : Nat) (ca : Bool) (f : WinFaults)
    (a b : List StepOutcome) :
    ∀ s : MatState, matLoop nc rp ca f (a ++ b) s
      = matLoop nc rp ca f b (matLoop nc rp ca f a s) := by
  induction a with
  | nil => intro s; rfl
  | cons o rest ih =>
    intro s
    by_cases h : matStop ca s = true
    · rw [matLoop_stopped nc rp ca f (o :: rest) s h,
        matLoop_stopped nc rp ca f ((o :: rest) ++ b) s h,
        matLoop_stopped nc rp ca f b s h]
    · have h' : matStop ca s = false := by
        cases hv : matStop ca s
        · rfl
        · exact absurd hv h
      cases o with
      | row cols => simp only [List.cons_append, matLoop, h', Bool.false_eq_true,
          if_false]; exact ih _
      | busy =>
        simp only [List.cons_append, matLoop, h', Bool.false_eq_true, if_false]
        by_cases hr : s.retryCount > 50
        · simp only [hr, if_pos]; exact ih _
        · simp only [hr, if_neg, if_false]; exact ih _
      | err => simp only [List.cons_append, matLoop, h', Bool.false_eq_true,
          if_false]; exact ih _

/-- Rows whose absolute index is before `startPos` are counted and skipped;
nothing else changes. -/
theorem matLoop_skip_phase (nc rp : Nat) (ca : Bool) (f : WinFaults)
    (pre : List RowVals) :
    ∀ s : MatState, s.err = none → s.windowFull = false → s.retryCount = 0 →
      s.totalRows + pre.length ≤ s.startPos →
      matLoop nc rp ca f (pre.map .row) s
        = { s with totalRows := s.totalRows + pre.length } := by
  induction pre with
  | nil =>
    intro s _ _ _ _
    show s = _
    cases s; rfl
  | cons r rest ih =>
    intro s herr hfull hretry hle
    have hstop : matStop ca s = false := by
      simp [matStop, herr, hfull]
    simp only [List.map_cons, matLoop, hstop, Bool.false_eq_true, if_false]
    have hskip : stepRow nc rp f r s = { s with retryCount := 0, totalRows := s.totalRows + 1 } := by
      simp only [stepRow]
      rw [if_pos]
      simp only [List.length_cons] at hle
      omega
    rw [hskip]
    have := ih { s with retryCount := 0, totalRows := s.totalRows + 1 }
      herr hfull rfl (by simp only [List.length_cons] at hle ⊢; simpa using by omega)
    rw [this]
    simp only [List.length_cons]
    cases s
    simp only [MatState.mk.injEq, and_true, true_and]
    constructor
    · exact hretry.symm
    · omega

/-- Fields `applyCpr` never changes, and its effect on the error flag. -/
theorem applyCpr_fields (p : CopyRowResult × CursorWindow) (s : MatState) :
    (applyCpr p s).totalRows = s.totalRows ∧
    (applyCpr p s).retryCount = s.retryCount ∧
    (applyCpr p s).startPos = s.startPos ∧
    (applyCpr p s).sleeps = s.sleeps ∧
    (applyCpr p s).err
      = (if p.1 = .CPR_ERROR then some MatErr.unsupportedType else s.err) := by
  obtain ⟨cpr, w⟩ := p
  cases cpr <;> simp [applyCpr]

/-- Dispatching the result of a `copyRow` on a fully supported row never
raises an error and leaves the counters alone. -/
theorem applyCpr_copyRow_supported (w : CursorWindow) (cols : RowVals)
    (s : MatState) (hsup : cols.all ColVal.supported = true) :
    (applyCpr (copyRow w cols) s).err = s.err ∧
    (applyCpr (copyRow w cols) s).totalRows = s.totalRows ∧
    (applyCpr (copyRow w cols) s).retryCount = s.retryCount ∧
    (applyCpr (copyRow w cols) s).sleeps = s.sleeps := by
  obtain ⟨h1, h2, h3, h4, h5⟩ := applyCpr_fields (copyRow w cols) s
  refine ⟨?_, h1, h2, h4⟩
  rw [h5, if_neg (copyRow_not_error_of_supported w cols hsup)]

/-- Encoding a fully supported row never raises an error and leaves the
row/retry/sleep counters alone, whatever the window or injected faults. -/
theorem stepRowEncode_supported (nc rp : Nat) (f : WinFaults) (cols : RowVals)
    (s1 : MatState) (hsup : cols.all ColVal.supported = true) :
    (stepRowEncode nc rp f cols s1).err = s1.err ∧
    (stepRowEncode nc rp f cols s1).totalRows = s1.totalRows ∧
    (stepRowEncode nc rp f cols s1).retryCount = s1.retryCount ∧
    (stepRowEncode nc rp f cols s1).sleeps = s1.sleeps := by
  simp only [stepRowEncode]
  split
  · exact applyCpr_copyRow_supported _ cols _ hsup
  · exact applyCpr_copyRow_supported _ cols _ hsup

/-- Stepping onto a fully supported row never raises an error and always
counts the row. -/
theorem stepRow_supported (nc rp : Nat) (f : WinFaults) (cols : RowVals)
    (s : MatState) (hsup : cols.all ColVal.supported = true)
    (herr : s.err = none) :
    (stepRow nc rp f cols s).err = none ∧
    (stepRow nc rp f cols s).totalRows = s.totalRows + 1 ∧
    (stepRow nc rp f cols s).retryCount = 0 ∧
    (stepRow nc rp f cols s).sleeps = s.sleeps := by
  simp only [stepRow]
  split
  · exact ⟨herr, rfl, rfl, rfl⟩
  · obtain ⟨h1, h2, h3, h4⟩ := stepRowEncode_supported nc rp f cols
      { s with retryCount := 0, totalRows := s.totalRows + 1 } hsup
    exact ⟨h1.trans herr, h2, h3, h4⟩

/-- With exhaustive counting the loop runs through any sequence of fully
supported rows without error, counting every one of them. -/
theorem matLoop_rows_supported (nc rp : Nat) (f : WinFaults) (rs : List RowVals)
    (hsup : ∀ r ∈ rs, r.all ColVal.supported = true) :
    ∀ s : MatState, s.err = none →
      (matLoop nc rp true f (rs.map .row) s).err = none ∧
      (matLoop nc rp true f (rs.map .row) s).totalRows = s.totalRows + rs.length := by
  induction rs with
  | nil => intro s herr; exact ⟨herr, rfl⟩
  | cons r rest ih =>
    intro s herr
    have hstop : matStop true s = false := by
      simp [matStop, herr]
    simp only [List.map_cons, matLoop, hstop, Bool.false_eq_true, if_false]
    obtain ⟨h1, h2, _, _⟩ := stepRow_supported nc rp f r s
      (hsup r (List.mem_cons_self r rest)) herr
    obtain ⟨ih1, ih2⟩ := ih (fun r' hr' => hsup r' (List.mem_cons_of_mem r hr'))
      (stepRow nc rp f r s) h1
    refine ⟨ih1, ?_⟩
    rw [ih2, h2, List.length_cons]
    omega

/-! ## Claim theorems -/

/-- C7: for every result sequence of N rows (all of supported types) and
every window, a materialization call with exhaustive counting enabled
encounters no error and returns `totalRowsSeen` equal to N, even though the
window may store fewer rows. -/
theorem exhaustiveCount_totalRows (rows : List RowVals) (w0 : CursorWindow)
    (nc sp rp : Nat) (hsup : ∀ r ∈ rows, r.all ColVal.supported = true) :
    (nativeExecuteForCursorWindow (rows.map .row) w0 nc sp rp true noFaults).totalRows
      = rows.length ∧
    (nativeExecuteForCursorWindow (rows.map .row) w0 nc sp rp true noFaults).err
      = none := by
  simp only [nativeExecuteForCursorWindow, noFaults_initClear, noFaults_initSetCols,
    Bool.false_eq_true, if_false]
  obtain ⟨h1, h2⟩ := matLoop_rows_supported nc rp noFaults rows hsup
    { window := (w0.clear).setNumColumns nc, startPos := sp, retryCount := 0,
      totalRows := 0, addedRows := 0, windowFull := false, err := none, sleeps := 0 }
    rfl
  exact ⟨by rw [h2]; simp, h1⟩

/-- C7 witness: five one-column rows against a window that cannot hold any
row still count all five. -/
theorem exhaustiveCount_totalRows_witness :
    (nativeExecuteForCursorWindow
        (([[ColVal.nul], [ColVal.intg 3], [ColVal.nul], [ColVal.nul], [ColVal.nul]].map
          StepOutcome.row)) ⟨0, 1, []⟩ 1 0 0 true noFaults).totalRows = 5 ∧
    (nativeExecuteForCursorWindow
        (([[ColVal.nul], [ColVal.intg 3], [ColVal.nul], [ColVal.nul], [ColVal.nul]].map
          StepOutcome.row)) ⟨0, 1, []⟩ 1 0 0 true noFaults).err = none :=
  exhaustiveCount_totalRows
    [[ColVal.nul], [ColVal.intg 3], [ColVal.nul], [ColVal.nul], [ColVal.nul]]
    ⟨0, 1, []⟩ 1 0 0 (by decide)

/-- C8: row-encoding atomicity.  Whenever the Row Encoder does not complete
a row — it reports `CPR_FULL` or `CPR_ERROR` — the partially allocated row
is released and the window is exactly as before the call, and a row with a
type tag outside the five supported ones never completes. -/
theorem copyRow_atomicity (w : CursorWindow) (cols : RowVals) :
    ((copyRow w cols).1 ≠ .CPR_OK → (copyRow w cols).2 = w) ∧
    (cols.all ColVal.supported = false → (copyRow w cols).1 ≠ .CPR_OK) :=
  ⟨copyRow_not_ok_window w cols, copyRow_not_ok_of_unsupported w cols⟩

/-- C8 witness: a row that does not fit a zero-capacity window leaves it
untouched, and a row with an unrecognized tag is never stored. -/
theorem copyRow_atomicity_witness :
    (copyRow ⟨0, 1, []⟩ [ColVal.nul]).2 = ⟨0, 1, []⟩ ∧
    (copyRow ⟨9, 1, []⟩ [ColVal.unknown 7]).1 ≠ .CPR_OK :=
  ⟨(copyRow_atomicity ⟨0, 1, []⟩ [ColVal.nul]).1 (by decide),
   (copyRow_atomicity ⟨9, 1, []⟩ [ColVal.unknown 7]).2 (by decide)⟩

/-- C9: contract of the long single-value helper.  Immediate completion
yields the caller's default; a row with a column count other than one fails
with the exactly-one-column message; a one-column row followed by anything
but completion fails with the more-than-one-row message; a first step that
is neither a row nor completion is a hard error; and the statement is reset
on every path. -/
theorem executeForLongAndReset_contract :
    (∀ d : Int, nativeExecuteForLongAndReset [] d = ⟨d, none, true⟩) ∧
    (∀ (d : Int) (cols : RowVals) (rest : List StepOutcome), cols.length ≠ 1 →
      nativeExecuteForLongAndReset (.row cols :: rest) d
        = ⟨0, some HelperErr.expectedOneColumn, true⟩) ∧
    (∀ (d : Int) (cols : RowVals), cols.length = 1 →
      nativeExecuteForLongAndReset [.row cols] d
        = ⟨(cols.headD .nul).asInt, none, true⟩) ∧
    (∀ (d : Int) (cols : RowVals) (o : StepOutcome) (rest : List StepOutcome),
      cols.length = 1 →
      nativeExecuteForLongAndReset (.row cols :: o :: rest) d
        = ⟨(cols.headD .nul).asInt, some HelperErr.gotMoreThanOneRow, true⟩) ∧
    (∀ (d : Int) (rest : List StepOutcome),
      nativeExecuteForLongAndReset (.busy :: rest) d
          = ⟨0, some HelperErr.errorEvaluating, true⟩ ∧
      nativeExecuteForLongAndReset (.err :: rest) d
          = ⟨0, some HelperErr.errorEvaluating, true⟩) ∧
    (∀ (outs : List StepOutcome) (d : Int),
      (nativeExecuteForLongAndReset outs d).stmtReset = true) := by
  refine ⟨fun d => rfl, ?_, ?_, ?_, fun d rest => ⟨rfl, rfl⟩, ?_⟩
  · intro d cols rest h
    simp [nativeExecuteForLongAndReset, h]
  · intro d cols h
    simp [nativeExecuteForLongAndReset, h]
  · intro d cols o rest h
    simp [nativeExecuteForLongAndReset, h]
  · intro outs d
    match outs with
    | [] => rfl
    | .row cols :: rest =>
      simp only [nativeExecuteForLongAndReset]
      split
      · rfl
      · cases rest <;> rfl
    | .busy :: rest => rfl
    | .err :: rest => rfl

/-- C9 witness: the hypotheses discharged on concrete statements — a
two-column row, a one-column row alone, and a one-column row followed by a
second row. -/
theorem executeForLongAndReset_contract_witness :
    nativeExecuteForLongAndReset [.row [ColVal.intg 1, ColVal.intg 2]] 7
      = ⟨0, some HelperErr.expectedOneColumn, true⟩ ∧
    nativeExecuteForLongAndReset [.row [ColVal.intg 42]] 7
      = ⟨42, none, true⟩ ∧
    nativeExecuteForLongAndReset [.row [ColVal.intg 42], .row [ColVal.intg 1]] 7
      = ⟨42, some HelperErr.gotMoreThanOneRow, true⟩ :=
  ⟨executeForLongAndReset_contract.2.1 7 [ColVal.intg 1, ColVal.intg 2] [] (by decide),
   executeForLongAndReset_contract.2.2.1 7 [ColVal.intg 42] (by decide),
   executeForLongAndReset_contract.2.2.2.1 7 [ColVal.intg 42] (.row [ColVal.intg 1]) []
     (by decide)⟩

/-- C4: evaluation of the pragma concatenation at a two-column row with
texts "ab" and "cd".  The source's copy loop takes its bytes from
`sqlite3_column_text16(statement, 0)` — column 0 — for every column, so it
produces "abab" where the spec's column-order concatenation is "abcd" (the
summed total length does match the spec). -/
theorem pragmaConcat_column_zero_bug :
    pragmaRowConcat [['a', 'b'], ['c', 'd']] = ['a', 'b', 'a', 'b'] ∧
    pragmaRowConcatSpec [['a', 'b'], ['c', 'd']] = ['a', 'b', 'c', 'd'] ∧
    pragmaRowConcat [['a', 'b'], ['c', 'd']]
      ≠ pragmaRowConcatSpec [['a', 'b'], ['c', 'd']] ∧
    (pragmaRowConcat [['a', 'b'], ['c', 'd']]).length
      = (([['a', 'b'], ['c', 'd']] : List (List Char)).map List.length).sum := by
  refine ⟨rfl, rfl, ?_, rfl⟩
  decide

/-- C2 counterexample: the claim says 51 consecutive `Busy` reports fail
with the lock timeout, but the ceiling check is `retryCount > 50` with the
counter incremented after the check, so the 51st consecutive report still
sleeps and retries: a cursor reporting `Busy` 51 times and then a row
completes without error. -/
theorem busyRetry_51_counterexample :
    (nativeExecuteForCursorWindow (List.replicate 51 .busy ++ [.row [.nul]])
        ⟨2, 1, []⟩ 1 0 0 false noFaults).err = none := by
  decide

/-- C2 amended: 49 consecutive `Busy` reports followed by a row complete
without error (49 one-millisecond sleeps); the counter resets on every row,
so two separate runs of 50 `Busy` reports also succeed; the call fails with
the lock timeout only on the 52nd consecutive report, after 51 sleeps —
the ceiling is 51 retry attempts, not 50. -/
theorem busyRetry_amended :
    ((nativeExecuteForCursorWindow (List.replicate 49 .busy ++ [.row [.nul]])
        ⟨2, 1, []⟩ 1 0 0 false noFaults).err = none ∧
      (nativeExecuteForCursorWindow (List.replicate 49 .busy ++ [.row [.nul]])
        ⟨2, 1, []⟩ 1 0 0 false noFaults).totalRows = 1 ∧
      (nativeExecuteForCursorWindow (List.replicate 49 .busy ++ [.row [.nul]])
        ⟨2, 1, []⟩ 1 0 0 false noFaults).sleeps = 49) ∧
    ((nativeExecuteForCursorWindow (List.replicate 52 .busy ++ [.row [.nul]])
        ⟨2, 1, []⟩ 1 0 0 false noFaults).err = some MatErr.lockTimeout ∧
      (nativeExecuteForCursorWindow (List.replicate 52 .busy ++ [.row [.nul]])
        ⟨2, 1, []⟩ 1 0 0 false noFaults).sleeps = 51) ∧
    ((nativeExecuteForCursorWindow
        (List.replicate 50 .busy ++ [.row [.nul]]
          ++ List.replicate 50 .busy ++ [.row [.nul]])
        ⟨9, 1, []⟩ 1 0 0 false noFaults).err = none ∧
      (nativeExecuteForCursorWindow
        (List.replicate 50 .busy ++ [.row [.nul]]
          ++ List.replicate 50 .busy ++ [.row [.nul]])
        ⟨9, 1, []⟩ 1 0 0 false noFaults).totalRows = 2 ∧
      (nativeExecuteForCursorWindow
        (List.replicate 50 .busy ++ [.row [.nul]]
          ++ List.replicate 50 .busy ++ [.row [.nul]])
        ⟨9, 1, []⟩ 1 0 0 false noFaults).sleeps = 100) := by
  refine ⟨⟨?_, ?_, ?_⟩, ⟨?_, ?_⟩, ⟨?_, ?_, ?_⟩⟩ <;> decide

/-- C3 counterexample: the claim says the statement is reset on every
execution path, but when the initial window clear (or the column-count set)
fails, `nativeExecuteForCursorWindow` returns 0 without calling
`sqlite3_reset`. -/
theorem stmtReset_counterexample :
    (nativeExecuteForCursorWindow [] ⟨0, 0, []⟩ 0 0 0 false
        ⟨true, false, false, false⟩).stmtReset = false := by
  decide

/-- C3 amended: on every path on which the statement is stepped at all —
that is, every path that gets past the initial window clear and column-count
set — `sqlite3_reset` is invoked before the call returns; the two
early-abort paths return without touching the statement. -/
theorem stmtReset_whenever_stepped (outs : List StepOutcome)
    (w0 : CursorWindow) (nc sp rp : Nat) (ca : Bool) (f : WinFaults) :
    (nativeExecuteForCursorWindow outs w0 nc sp rp ca f).stmtReset = true ∨
    (nativeExecuteForCursorWindow outs w0 nc sp rp ca f).stepped = false := by
  simp only [nativeExecuteForCursorWindow]
  split
  · exact Or.inr rfl
  · split
    · exact Or.inr rfl
    · exact Or.inl rfl

/-- C10: oversized-first-row edge case.  If the first eligible row (the row
at index `startPos`) costs more than the whole window, no recovery is
attempted whatever `requiredPos` is: the window is simply marked full, the
row still counts toward `totalRowsSeen`, the returned start position is the
caller's `startPos`, and the call completes without error with an empty
buffer. -/
theorem oversizedFirstRow (rows : List RowVals) (w0 : CursorWindow)
    (nc sp rp : Nat) (hlen : sp < rows.length)
    (hsup : (rows.get ⟨sp, hlen⟩).all ColVal.supported = true)
    (hbig : w0.capacity < rowCost nc (rows.get ⟨sp, hlen⟩)) :
    (nativeExecuteForCursorWindow (rows.map .row) w0 nc sp rp false noFaults).err
        = none ∧
    (nativeExecuteForCursorWindow (rows.map .row) w0 nc sp rp false noFaults).windowFull
        = true ∧
    (nativeExecuteForCursorWindow (rows.map .row) w0 nc sp rp false noFaults).window.rows
        = [] ∧
    (nativeExecuteForCursorWindow (rows.map .row) w0 nc sp rp false noFaults).totalRows
        = sp + 1 ∧
    (nativeExecuteForCursorWindow (rows.map .row) w0 nc sp rp false noFaults).startPos
        = sp := by
  have hrows : rows = rows.take sp ++ (rows.get ⟨sp, hlen⟩ :: rows.drop (sp + 1)) := by
    conv_lhs => rw [← List.take_append_drop sp rows]
    rw [List.drop_eq_getElem_cons hlen]
    rfl
  have hsplit : rows.map StepOutcome.row
      = (rows.take sp).map StepOutcome.row
        ++ ((rows.get ⟨sp, hlen⟩ :: rows.drop (sp + 1)).map StepOutcome.row) := by
    rw [← List.map_append, ← hrows]
  simp only [nativeExecuteForCursorWindow, noFaults_initClear, noFaults_initSetCols,
    Bool.false_eq_true, if_false]
  rw [hsplit, matLoop_append]
  have hskip := matLoop_skip_phase nc rp false noFaults (rows.take sp)
    { window := (w0.clear).setNumColumns nc, startPos := sp, retryCount := 0,
      totalRows := 0, addedRows := 0, windowFull := false, err := none, sleeps := 0 }
    rfl rfl rfl (by simp only [List.length_take]; omega)
  rw [hskip]
  have hlentake : (rows.take sp).length = sp := by
    simp only [List.length_take]; omega
  rw [hlentake]
  have hstop : matStop false
      { window := (w0.clear).setNumColumns nc, startPos := sp, retryCount := 0,
        totalRows := 0 + sp, addedRows := 0, windowFull := false, err := none,
        sleeps := 0 } = false := by
    simp [matStop]
  simp only [List.map_cons, matLoop, hstop, Bool.false_eq_true, if_false]
  have hstep : stepRow nc rp noFaults (rows.get ⟨sp, hlen⟩)
      { window := (w0.clear).setNumColumns nc, startPos := sp, retryCount := 0,
        totalRows := 0 + sp, addedRows := 0, windowFull := false, err := none,
        sleeps := 0 }
      = { window := (w0.clear).setNumColumns nc, startPos := sp, retryCount := 0,
          totalRows := 0 + sp + 1, addedRows := 0, windowFull := true, err := none,
          sleeps := 0 } := by
    simp only [stepRow]
    rw [if_neg (by simp)]
    simp only [stepRowEncode]
    have hfull : copyRow ((w0.clear).setNumColumns nc) (rows.get ⟨sp, hlen⟩)
        = (.CPR_FULL, (w0.clear).setNumColumns nc) := by
      apply copyRow_full_of_overflow _ _ hsup
      show CursorWindow.capacity _ < usedSpace _ + rowCost _ _
      have h0 : usedSpace ((w0.clear).setNumColumns nc) = 0 := by
        simp [usedSpace, CursorWindow.clear, CursorWindow.setNumColumns]
      rw [h0]
      simpa [CursorWindow.clear, CursorWindow.setNumColumns] using hbig
    rw [hfull]
    rw [if_neg (by simp)]
    rfl
  rw [hstep]
  rw [matLoop_stopped _ _ _ _ _ _ (by simp [matStop])]
  exact ⟨rfl, rfl, rfl, by simp, rfl⟩

/-- C10 witness: three one-column rows, the second (at `startPos = 1`)
holding a text too large for the two-byte window. -/
theorem oversizedFirstRow_witness :
    (nativeExecuteForCursorWindow
        ([[ColVal.nul], [ColVal.text ['a', 'b', 'c']], [ColVal.nul]].map StepOutcome.row)
        ⟨2, 1, []⟩ 1 1 5 false noFaults).err = none ∧
    (nativeExecuteForCursorWindow
        ([[ColVal.nul], [ColVal.text ['a', 'b', 'c']], [ColVal.nul]].map StepOutcome.row)
        ⟨2, 1, []⟩ 1 1 5 false noFaults).windowFull = true ∧
    (nativeExecuteForCursorWindow
        ([[ColVal.nul], [ColVal.text ['a', 'b', 'c']], [ColVal.nul]].map StepOutcome.row)
        ⟨2, 1, []⟩ 1 1 5 false noFaults).window.rows = [] ∧
    (nativeExecuteForCursorWindow
        ([[ColVal.nul], [ColVal.text ['a', 'b', 'c']], [ColVal.nul]].map StepOutcome.row)
        ⟨2, 1, []⟩ 1 1 5 false noFaults).totalRows = 2 ∧
    (nativeExecuteForCursorWindow
        ([[ColVal.nul], [ColVal.text ['a', 'b', 'c']], [ColVal.nul]].map StepOutcome.row)
        ⟨2, 1, []⟩ 1 1 5 false noFaults).startPos = 1 :=
  oversizedFirstRow [[ColVal.nul], [ColVal.text ['a', 'b', 'c']], [ColVal.nul]]
    ⟨2, 1, []⟩ 1 1 5 (by decide) (by decide) (by decide)

/-- C5 counterexample: the claim says failures of the Window Buffer
operations invoked during overflow recovery are surfaced, but the code
discards the statuses of the mid-loop `clear` and `setNumColumns`.  With two
one-row-capacity rows, `requiredPos = 1`, and a recovery `clear` that fails,
the call reports no error at all — and returns a corrupted window whose
start position has advanced to 1 while it still holds row 0. -/
theorem recoveryClear_swallowed_counterexample :
    (nativeExecuteForCursorWindow [.row [ColVal.nul], .row [ColVal.nul]]
        ⟨2, 1, []⟩ 1 0 1 false ⟨false, false, true, false⟩).err = none ∧
    (nativeExecuteForCursorWindow [.row [ColVal.nul], .row [ColVal.nul]]
        ⟨2, 1, []⟩ 1 0 1 false ⟨false, false, true, false⟩).window.rows
        = [[ColVal.nul]] ∧
    (nativeExecuteForCursorWindow [.row [ColVal.nul], .row [ColVal.nul]]
        ⟨2, 1, []⟩ 1 0 1 false ⟨false, false, true, false⟩).startPos = 1 := by
  refine ⟨?_, ?_, ?_⟩ <;> decide

/-- C5 amended: every error other than the ignored recovery-time Window
Buffer statuses is surfaced: a failing initial clear or column-count set
aborts the call with its own error, an engine error reported by a step is
surfaced, and an unrecognized column type is surfaced. -/
theorem errors_surfaced :
    (∀ (outs : List StepOutcome) (w0 : CursorWindow) (nc sp rp : Nat)
        (ca : Bool) (f : WinFaults), f.initClear = true →
      (nativeExecuteForCursorWindow outs w0 nc sp rp ca f).err
        = some MatErr.clearFailed) ∧
    (∀ (outs : List StepOutcome) (w0 : CursorWindow) (nc sp rp : Nat)
        (ca : Bool) (f : WinFaults), f.initClear = false → f.initSetCols = true →
      (nativeExecuteForCursorWindow outs w0 nc sp rp ca f).err
        = some MatErr.setColsFailed) ∧
    (∀ (rows : List RowVals) (w0 : CursorWindow) (nc sp rp : Nat),
      (∀ r ∈ rows, r.all ColVal.supported = true) →
      (nativeExecuteForCursorWindow (rows.map .row ++ [.err]) w0 nc sp rp true
          noFaults).err = some MatErr.engineErr) ∧
    (∀ (w0 : CursorWindow) (nc rp tag : Nat),
      rowDirSize nc ≤ w0.capacity →
      (nativeExecuteForCursorWindow [.row [ColVal.unknown tag]] w0 nc 0 rp true
          noFaults).err = some MatErr.unsupportedType) := by
  refine ⟨?_, ?_, ?_, ?_⟩
  · intro outs w0 nc sp rp ca f h
    simp [nativeExecuteForCursorWindow, h]
  · intro outs w0 nc sp rp ca f h1 h2
    simp [nativeExecuteForCursorWindow, h1, h2]
  · intro rows w0 nc sp rp hsup
    simp only [nativeExecuteForCursorWindow, noFaults_initClear, noFaults_initSetCols,
      Bool.false_eq_true, if_false]
    rw [matLoop_append]
    obtain ⟨h1, _⟩ := matLoop_rows_supported nc rp noFaults rows hsup
      { window := (w0.clear).setNumColumns nc, startPos := sp, retryCount := 0,
        totalRows := 0, addedRows := 0, windowFull := false, err := none, sleeps := 0 }
      rfl
    have hstop : matStop true (matLoop nc rp true noFaults (rows.map .row)
        { window := (w0.clear).setNumColumns nc, startPos := sp, retryCount := 0,
          totalRows := 0, addedRows := 0, windowFull := false, err := none,
          sleeps := 0 }) = false := by
      simp [matStop, h1]
    simp only [matLoop, hstop, Bool.false_eq_true, if_false]
  · intro w0 nc rp tag hcap
    simp only [nativeExecuteForCursorWindow, noFaults_initClear, noFaults_initSetCols,
      Bool.false_eq_true, if_false]
    have hstop : matStop true
        { window := (w0.clear).setNumColumns nc, startPos := 0, retryCount := 0,
          totalRows := 0, addedRows := 0, windowFull := false, err := none,
          sleeps := 0 } = false := by
      simp [matStop]
    simp only [matLoop, hstop, Bool.false_eq_true, if_false]
    have hstep : (stepRow nc rp noFaults [ColVal.unknown tag]
        { window := (w0.clear).setNumColumns nc, startPos := 0, retryCount := 0,
          totalRows := 0, addedRows := 0, windowFull := false, err := none,
          sleeps := 0 }).err = some MatErr.unsupportedType := by
      simp only [stepRow]
      rw [if_neg (by simp)]
      simp only [stepRowEncode]
      have herror : copyRow ((w0.clear).setNumColumns nc) [ColVal.unknown tag]
          = (.CPR_ERROR,
              (⟨w0.capacity, nc, [[]]⟩ : CursorWindow).freeLastRow) := by
        have halloc : CursorWindow.allocRow ((w0.clear).setNumColumns nc)
            = some ⟨w0.capacity, nc, [[]]⟩ := by
          have h0 : usedSpace ((w0.clear).setNumColumns nc) = 0 := by
            simp [usedSpace, CursorWindow.clear, CursorWindow.setNumColumns]
          simp only [CursorWindow.allocRow, h0]
          rw [if_pos]
          · simp [CursorWindow.clear, CursorWindow.setNumColumns]
          · simpa [CursorWindow.clear, CursorWindow.setNumColumns] using hcap
        simp [copyRow, halloc, copyCols, ColVal.supported]
      rw [herror]
      rw [if_neg (by simp)]
      rfl
    exact hstep

/-- C5 amended witness: each surfaced-error case at a concrete input — a
failing initial clear, a failing initial column-count set, an engine error
after one good row, and an unrecognized type tag. -/
theorem errors_surfaced_witness :
    (nativeExecuteForCursorWindow [] ⟨0, 0, []⟩ 0 0 0 false
        ⟨true, false, false, false⟩).err = some MatErr.clearFailed ∧
    (nativeExecuteForCursorWindow [] ⟨0, 0, []⟩ 0 0 0 false
        ⟨false, true, false, false⟩).err = some MatErr.setColsFailed ∧
    (nativeExecuteForCursorWindow ([[ColVal.nul]].map .row ++ [.err])
        ⟨2, 1, []⟩ 1 0 0 true noFaults).err = some MatErr.engineErr ∧
    (nativeExecuteForCursorWindow [.row [ColVal.unknown 9]]
        ⟨2, 1, []⟩ 1 0 0 true noFaults).err = some MatErr.unsupportedType :=
  ⟨errors_surfaced.1 [] ⟨0, 0, []⟩ 0 0 0 false ⟨true, false, false, false⟩ rfl,
   errors_surfaced.2.1 [] ⟨0, 0, []⟩ 0 0 0 false ⟨false, true, false, false⟩ rfl rfl,
   errors_surfaced.2.2.1 [[ColVal.nul]] ⟨2, 1, []⟩ 1 0 0 (by decide),
   errors_surfaced.2.2.2 ⟨2, 1, []⟩ 1 0 9 (by decide)⟩

/-- Space taken by k stored single-null-column rows: 2 units each (one-column
field directory of size 2, zero payload). -/
theorem usedSpace_replicate_nul (cap k : Nat) :
    usedSpace ⟨cap, 1, List.replicate k [ColVal.nul]⟩ = 2 * k := by
  simp only [usedSpace, List.map_replicate, List.sum_replicate, smul_eq_mul]
  simp [rowDirSize, payloadSize, ColVal.putSize]
  omega

/-- Loop behaviour on uniform single-null-column rows with a window that
holds exactly C of them, `startPos = requiredPos = 0`, counting disabled:
starting with k rows already stored, m further rows raise `totalRows` by
`min m (C - k + 1)`. -/
theorem matLoop_uniform_nul (C : Nat) (m : Nat) :
    ∀ k : Nat, k ≤ C →
      (matLoop 1 0 false noFaults (List.replicate m (.row [ColVal.nul]))
        { window := ⟨2 * C, 1, List.replicate k [ColVal.nul]⟩, startPos := 0,
          retryCount := 0, totalRows := k, addedRows := k, windowFull := false,
          err := none, sleeps := 0 }).totalRows = k + min m (C - k + 1) := by
  induction m with
  | zero => intro k hk; simp [matLoop]
  | succ m ih =>
    intro k hk
    have hstop : matStop false
        { window := ⟨2 * C, 1, List.replicate k [ColVal.nul]⟩, startPos := 0,
          retryCount := 0, totalRows := k, addedRows := k, windowFull := false,
          err := none, sleeps := 0 } = false := by
      simp [matStop]
    simp only [List.replicate_succ, matLoop, hstop, Bool.false_eq_true, if_false]
    rcases Nat.lt_or_ge k C with hlt | hge
    · -- the next row still fits
      have hok : copyRow ⟨2 * C, 1, List.replicate k [ColVal.nul]⟩ [ColVal.nul]
          = (.CPR_OK, ⟨2 * C, 1, List.replicate (k + 1) [ColVal.nul]⟩) := by
        have := copyRow_ok_of_fits ⟨2 * C, 1, List.replicate k [ColVal.nul]⟩
          [ColVal.nul] (by decide)
          (by
            rw [usedSpace_replicate_nul]
            show 2 * k + rowCost 1 [ColVal.nul] ≤ 2 * C
            have : rowCost 1 [ColVal.nul] = 2 := by decide
            omega)
        rw [this, List.replicate_succ']
      have hstep : stepRow 1 0 noFaults [ColVal.nul]
          { window := ⟨2 * C, 1, List.replicate k [ColVal.nul]⟩, startPos := 0,
            retryCount := 0, totalRows := k, addedRows := k, windowFull := false,
            err := none, sleeps := 0 }
          = { window := ⟨2 * C, 1, List.replicate (k + 1) [ColVal.nul]⟩,
              startPos := 0, retryCount := 0, totalRows := k + 1,
              addedRows := k + 1, windowFull := false, err := none, sleeps := 0 } := by
        simp only [stepRow]
        rw [if_neg (by simp)]
        simp only [stepRowEncode, hok]
        rw [if_neg (by rintro ⟨h, -, -⟩; cases h)]
        rfl
      rw [hstep, ih (k + 1) (by omega)]
      omega
    · -- the window is exactly full: the row overflows, no recovery applies
      have hk' : k = C := by omega
      have hfull : copyRow ⟨2 * C, 1, List.replicate k [ColVal.nul]⟩ [ColVal.nul]
          = (.CPR_FULL, ⟨2 * C, 1, List.replicate k [ColVal.nul]⟩) := by
        apply copyRow_full_of_overflow _ _ (by decide)
        show 2 * C < usedSpace _ + rowCost 1 [ColVal.nul]
        rw [usedSpace_replicate_nul]
        have : rowCost 1 [ColVal.nul] = 2 := by decide
        omega
      have hstep : stepRow 1 0 noFaults [ColVal.nul]
          { window := ⟨2 * C, 1, List.replicate k [ColVal.nul]⟩, startPos := 0,
            retryCount := 0, totalRows := k, addedRows := k, windowFull := false,
            err := none, sleeps := 0 }
          = { window := ⟨2 * C, 1, List.replicate k [ColVal.nul]⟩, startPos := 0,
              retryCount := 0, totalRows := k + 1, addedRows := k,
              windowFull := true, err := none, sleeps := 0 } := by
        simp only [stepRow]
        rw [if_neg (by simp)]
        simp only [stepRowEncode, hfull]
        rw [if_neg (by rintro ⟨-, h1, h2⟩; omega)]
        rfl
      rw [hstep]
      rw [matLoop_stopped _ _ _ _ _ _ (by simp [matStop])]
      show k + 1 = k + min (m + 1) (C - k + 1)
      omega

/-- C6: with `startPos = requiredPos = 0` and exhaustive counting disabled,
a result of N uniform one-null-column rows against a window holding exactly
C such rows yields `totalRowsSeen = N` when `N ≤ C`, and
`min (N, C + 1)` — the C rows that fit plus the one row whose failed
encoding marked the window full — when `N > C`. -/
theorem totalRows_windowCapacity (N C : Nat) :
    (N ≤ C →
      (nativeExecuteForCursorWindow (List.replicate N (.row [ColVal.nul]))
        ⟨2 * C, 1, []⟩ 1 0 0 false noFaults).totalRows = N) ∧
    (C < N →
      (nativeExecuteForCursorWindow (List.replicate N (.row [ColVal.nul]))
        ⟨2 * C, 1, []⟩ 1 0 0 false noFaults).totalRows = min N (C + 1)) := by
  have h0 := matLoop_uniform_nul C N 0 (by omega)
  have hrun : (nativeExecuteForCursorWindow (List.replicate N (.row [ColVal.nul]))
      ⟨2 * C, 1, []⟩ 1 0 0 false noFaults).totalRows = min N (C + 1) := by
    simp only [nativeExecuteForCursorWindow, noFaults_initClear, noFaults_initSetCols,
      Bool.false_eq_true, if_false]
    have h0' : (matLoop 1 0 false noFaults
        (List.replicate N (.row [ColVal.nul]))
        { window := (CursorWindow.clear ⟨2 * C, 1, []⟩).setNumColumns 1,
          startPos := 0, retryCount := 0, totalRows := 0, addedRows := 0,
          windowFull := false, err := none, sleeps := 0 }).totalRows
        = 0 + min N (C - 0 + 1) := h0
    rw [h0']
    omega
  exact ⟨fun h => by rw [hrun]; omega, fun _ => hrun⟩

/-- C6 witness: two rows fit a three-row window (`totalRowsSeen = 2`), and
five rows against a two-row window stop at the third (`totalRowsSeen = 3`). -/
theorem totalRows_windowCapacity_witness :
    (nativeExecuteForCursorWindow (List.replicate 2 (.row [ColVal.nul]))
      ⟨2 * 3, 1, []⟩ 1 0 0 false noFaults).totalRows = 2 ∧
    (nativeExecuteForCursorWindow (List.replicate 5 (.row [ColVal.nul]))
      ⟨2 * 2, 1, []⟩ 1 0 0 false noFaults).totalRows = min 5 (2 + 1) :=
  ⟨(totalRows_windowCapacity 2 3).1 (by decide),
   (totalRows_windowCapacity 5 2).2 (by decide)⟩

/-- Loop invariant of the materializer on an error-free run over `rows`:
the window holds exactly the contiguous slice of `rows` beginning at the
current `startPos`, the start never moves past `requiredPos`, and once the
window is marked full the stored slice already covers `requiredPos`. -/
def matInv (rows : List RowVals) (capacity numColumns requiredPos : Nat)
    (s : MatState) : Prop :=
  s.totalRows ≤ rows.length ∧
  s.err = none ∧
  s.window.capacity = capacity ∧
  s.window.numColumns = numColumns ∧
  s.startPos ≤ requiredPos ∧
  s.window.rows = (rows.drop s.startPos).take s.addedRows ∧
  usedSpace s.window ≤ capacity ∧
  (s.windowFull = false → s.startPos + s.addedRows = max s.startPos s.totalRows) ∧
  (s.windowFull = true → requiredPos < s.startPos + s.addedRows ∧
    s.startPos + s.addedRows ≤ s.totalRows)

/-- The materializer loop preserves `matInv` over any suffix of the result
rows, provided every row is fully supported and fits alone in an empty
window; at the end either the window was marked full (already covering
`requiredPos`) or every row was consumed. -/
theorem matLoop_reach (rows : List RowVals) (capacity numColumns requiredPos : Nat)
    (ca : Bool)
    (hfit : ∀ r ∈ rows, r.all ColVal.supported = true ∧
      rowCost numColumns r ≤ capacity) :
    ∀ (rs : List RowVals) (s : MatState),
      rows.drop s.totalRows = rs →
      matInv rows capacity numColumns requiredPos s →
      matInv rows capacity numColumns requiredPos
        (matLoop numColumns requiredPos ca noFaults (rs.map .row) s) ∧
      ((matLoop numColumns requiredPos ca noFaults (rs.map .row) s).windowFull = true ∨
        (matLoop numColumns requiredPos ca noFaults (rs.map .row) s).totalRows
          = rows.length) := by
  intro rs
  induction rs with
  | nil =>
    intro s hdrop hinv
    refine ⟨hinv, Or.inr ?_⟩
    have hlen : rows.length ≤ s.totalRows := List.drop_eq_nil_iff.mp hdrop
    have := hinv.1
    show s.totalRows = rows.length
    omega
  | cons r rs' ih =>
    intro s hdrop hinv
    obtain ⟨h1, h2, h3, h4, h5, h6, h7, h8, h9⟩ := hinv
    have hlt : s.totalRows < rows.length := by
      by_contra hc
      rw [List.drop_eq_nil_of_le (by omega)] at hdrop
      cases hdrop
    have hcons := List.drop_eq_getElem_cons (l := rows) hlt
    rw [hdrop] at hcons
    have hget : rows[s.totalRows] = r := by
      exact (List.cons.injEq _ _ _ _ ▸ hcons).1.symm
    have hdrop' : rows.drop (s.totalRows + 1) = rs' := by
      exact ((List.cons.injEq _ _ _ _ ▸ hcons).2).symm
    have hrmem : r ∈ rows := by
      rw [← hget]; exact List.getElem_mem hlt
    obtain ⟨hsupr, hcostr⟩ := hfit r hrmem
    by_cases hstop : matStop ca s = true
    · -- the guard already stops the loop: the window must be full
      rw [matLoop_stopped _ _ _ _ _ _ hstop]
      have hfull : s.windowFull = true := by
        simp only [matStop, h2, Option.isSome_none, Bool.false_or,
          Bool.and_eq_true] at hstop
        exact hstop.1
      exact ⟨⟨h1, h2, h3, h4, h5, h6, h7, h8, h9⟩, Or.inl hfull⟩
    · have hstop' : matStop ca s = false := by
        cases h : matStop ca s
        · rfl
        · exact absurd h hstop
      simp only [List.map_cons, matLoop, hstop', Bool.false_eq_true, if_false]
      by_cases hskip : s.startPos ≥ s.totalRows + 1 ∨ s.windowFull = true
      · -- the row is skipped (before startPos, or window already full)
        have hstep : stepRow numColumns requiredPos noFaults r s
            = { s with retryCount := 0, totalRows := s.totalRows + 1 } := by
          simp only [stepRow]
          rw [if_pos]
          exact hskip
        rw [hstep]
        apply ih
        · exact hdrop'
        · refine ⟨by simpa using hlt, h2, h3, h4, h5, h6, h7, ?_, ?_⟩
          · intro hf
            have hf' : s.windowFull = false := hf
            have hmax := h8 hf'
            rcases hskip with hsp | hfull
            · show s.startPos + s.addedRows = max s.startPos (s.totalRows + 1)
              omega
            · rw [hf'] at hfull; cases hfull
          · intro hf
            have hf' : s.windowFull = true := hf
            obtain ⟨ha, hb⟩ := h9 hf'
            refine ⟨ha, ?_⟩
            show s.startPos + s.addedRows ≤ s.totalRows + 1
            omega
      · -- the row is encoded
        push_neg at hskip
        obtain ⟨hsp, hnf⟩ := hskip
        have hnf' : s.windowFull = false := by
          cases h : s.windowFull
          · rfl
          · exact absurd h hnf
        have hadded : s.startPos + s.addedRows = s.totalRows := by
          have := h8 hnf'
          omega
        by_cases hfits : usedSpace s.window + rowCost numColumns r ≤ capacity
        · -- the row fits: stored, slice extended
          have hok : copyRow s.window r
              = (.CPR_OK, ⟨capacity, numColumns, s.window.rows ++ [r]⟩) := by
            have := copyRow_ok_of_fits s.window r hsupr (by rw [h4, h3]; exact hfits)
            rw [this, h3, h4]
          have hstep : stepRow numColumns requiredPos noFaults r s
              = { s with
                  retryCount := 0
                  totalRows := s.totalRows + 1
                  window := ⟨capacity, numColumns, s.window.rows ++ [r]⟩
                  addedRows := s.addedRows + 1 } := by
            simp only [stepRow]
            rw [if_neg (by rw [hnf']; simp; omega)]
            simp only [stepRowEncode, hok]
            rw [if_neg (by rintro ⟨hc, -, -⟩; cases hc)]
            rfl
          rw [hstep]
          apply ih
          · exact hdrop'
          · refine ⟨by simpa using hlt, h2, rfl, rfl, h5, ?_, ?_, ?_, ?_⟩
            · show s.window.rows ++ [r] = (rows.drop s.startPos).take (s.addedRows + 1)
              rw [List.take_succ, h6]
              congr 1
              rw [List.getElem?_drop]
              rw [hadded]
              rw [List.getElem?_eq_getElem hlt]
              rw [hget]
              rfl
            · show usedSpace ⟨capacity, numColumns, s.window.rows ++ [r]⟩ ≤ capacity
              rw [usedSpace_append]
              have husw : usedSpace ⟨capacity, numColumns, s.window.rows⟩
                  = usedSpace s.window := by
                rw [show s.window = ⟨s.window.capacity, s.window.numColumns,
                  s.window.rows⟩ from rfl, h3, h4]
              rw [husw]
              simp only [rowCost] at hfits
              omega
            · intro _
              show s.startPos + (s.addedRows + 1) = max s.startPos (s.totalRows + 1)
              omega
            · intro hf
              have hf' : s.windowFull = true := hf
              rw [hnf'] at hf'
              cases hf'
        · -- the row does not fit the remaining space
          push_neg at hfits
          have hfullr : copyRow s.window r = (.CPR_FULL, s.window) := by
            apply copyRow_full_of_overflow s.window r hsupr
            rw [h4, h3]
            exact hfits
          have haddne : s.addedRows ≠ 0 := by
            intro h0
            rw [h0] at h6
            simp only [List.take_zero] at h6
            have husz : usedSpace s.window = 0 := by
              rw [show s.window = ⟨s.window.capacity, s.window.numColumns,
                s.window.rows⟩ from rfl, h6]
              simp [usedSpace]
            omega
          by_cases hrec : s.startPos + s.addedRows ≤ requiredPos
          · -- overflow recovery: clear, restart at this row, re-encode it
            have hw : (s.window.clear).setNumColumns numColumns
                = (⟨capacity, numColumns, []⟩ : CursorWindow) := by
              rw [show (s.window.clear).setNumColumns numColumns
                  = ⟨s.window.capacity, numColumns, []⟩ from rfl, h3]
            have hok2 : copyRow ((s.window.clear).setNumColumns numColumns) r
                = (.CPR_OK, ⟨capacity, numColumns, [r]⟩) := by
              rw [hw]
              have hz0 : usedSpace ⟨capacity, numColumns, []⟩ = 0 := by
                simp [usedSpace]
              have := copyRow_ok_of_fits ⟨capacity, numColumns, []⟩ r hsupr
                (by
                  rw [hz0]
                  show 0 + rowCost numColumns r ≤ capacity
                  omega)
              rw [this]
              rfl
            have hstep : stepRow numColumns requiredPos noFaults r s
                = { s with
                    retryCount := 0
                    totalRows := s.totalRows + 1
                    startPos := s.startPos + s.addedRows
                    window := ⟨capacity, numColumns, [r]⟩
                    addedRows := 1 } := by
              simp only [stepRow]
              rw [if_neg (by rw [hnf']; simp; omega)]
              simp only [stepRowEncode, hfullr]
              rw [if_pos ⟨by simp, haddne, hrec⟩]
              show applyCpr (copyRow ((s.window.clear).setNumColumns numColumns) r) _
                  = _
              rw [hok2]
              rfl
            rw [hstep]
            apply ih
            · exact hdrop'
            · refine ⟨by simpa using hlt, h2, rfl, rfl, hrec, ?_, ?_, ?_, ?_⟩
              · show [r] = (rows.drop (s.startPos + s.addedRows)).take 1
                rw [hadded]
                rw [List.drop_eq_getElem_cons hlt, hget]
                rfl
              · show usedSpace ⟨capacity, numColumns, [r]⟩ ≤ capacity
                have : usedSpace ⟨capacity, numColumns, [r]⟩
                    = rowCost numColumns r := by
                  simp [usedSpace, rowCost]
                rw [this]
                exact hcostr
              · intro _
                show s.startPos + s.addedRows + 1 = max (s.startPos + s.addedRows)
                  (s.totalRows + 1)
                omega
              · intro hf
                have hf' : s.windowFull = true := hf
                rw [hnf'] at hf'
                cases hf'
          · -- past requiredPos already: mark the window full
            have hstep : stepRow numColumns requiredPos noFaults r s
                = { s with
                    retryCount := 0
                    totalRows := s.totalRows + 1
                    windowFull := true } := by
              simp only [stepRow]
              rw [if_neg (by rw [hnf']; simp; omega)]
              simp only [stepRowEncode, hfullr]
              rw [if_neg (by rintro ⟨-, -, hc⟩; exact hrec hc)]
              rfl
            rw [hstep]
            apply ih
            · exact hdrop'
            · refine ⟨by simpa using hlt, h2, h3, h4, h5, h6, h7, ?_, ?_⟩
              · intro hc; cases hc
              · intro _
                constructor
                · show requiredPos < s.startPos + s.addedRows
                  omega
                · show s.startPos + s.addedRows ≤ s.totalRows + 1
                  omega

/-- C1 counterexample: the claim quantifies over every result sequence and
window capacity, but a row whose encoded size exceeds the capacity of an
empty window defeats the restart policy.  Here the window holds exactly one
null row, `requiredPos = 1` lies beyond what fits from `startPos = 0`, and
row 1 is a text row that does not fit even an empty window: recovery clears
the buffer, the retry still fails, and the call ends with an empty buffer
that does not contain the row at `requiredPos`. -/
theorem requiredPos_unreachable_counterexample :
    (nativeExecuteForCursorWindow
        [.row [ColVal.nul], .row [ColVal.text ['a']]]
        ⟨2, 1, []⟩ 1 0 1 false noFaults).window.rows = [] ∧
    [ColVal.text ['a']] ∉ (nativeExecuteForCursorWindow
        [.row [ColVal.nul], .row [ColVal.text ['a']]]
        ⟨2, 1, []⟩ 1 0 1 false noFaults).window.rows := by
  refine ⟨?_, ?_⟩ <;> decide

/-- C1 amended: for every result sequence and window, if `startPos ≤
requiredPos`, the result has more than `requiredPos` rows, and every row is
fully supported and fits alone in an empty window, then after the call the
Window Buffer contains the row at absolute result index `requiredPos` — in
particular whenever `requiredPos` falls beyond what fits from `startPos`,
the restart policy makes it reachable. -/
theorem requiredPos_reachable (rows : List RowVals) (w0 : CursorWindow)
    (nc sp rp : Nat) (ca : Bool) (hsr : sp ≤ rp) (hlt : rp < rows.length)
    (hfit : ∀ r ∈ rows, r.all ColVal.supported = true ∧
      rowCost nc r ≤ w0.capacity) :
    rows[rp] ∈ (nativeExecuteForCursorWindow (rows.map .row) w0 nc sp rp ca
      noFaults).window.rows := by
  simp only [nativeExecuteForCursorWindow, noFaults_initClear, noFaults_initSetCols,
    Bool.false_eq_true, if_false]
  show rows[rp] ∈ (matLoop nc rp ca noFaults (rows.map .row)
    { window := (w0.clear).setNumColumns nc, startPos := sp, retryCount := 0,
      totalRows := 0, addedRows := 0, windowFull := false, err := none,
      sleeps := 0 }).window.rows
  have hinv0 : matInv rows w0.capacity nc rp
      { window := (w0.clear).setNumColumns nc, startPos := sp, retryCount := 0,
        totalRows := 0, addedRows := 0, windowFull := false, err := none,
        sleeps := 0 } := by
    refine ⟨by show (0 : Nat) ≤ rows.length; omega, rfl, rfl, rfl, hsr,
      by simp [CursorWindow.clear, CursorWindow.setNumColumns], ?_, ?_, ?_⟩
    · show usedSpace ((w0.clear).setNumColumns nc) ≤ w0.capacity
      simp [usedSpace, CursorWindow.clear, CursorWindow.setNumColumns]
    · intro _
      show sp + 0 = max sp 0
      omega
    · intro hc; cases hc
  obtain ⟨hinvF, hdone⟩ := matLoop_reach rows w0.capacity nc rp ca hfit rows
    { window := (w0.clear).setNumColumns nc, startPos := sp, retryCount := 0,
      totalRows := 0, addedRows := 0, windowFull := false, err := none,
      sleeps := 0 } (by simp) hinv0
  set sF := matLoop nc rp ca noFaults (rows.map .row)
    { window := (w0.clear).setNumColumns nc, startPos := sp, retryCount := 0,
      totalRows := 0, addedRows := 0, windowFull := false, err := none,
      sleeps := 0 } with hsF
  obtain ⟨f1, f2, f3, f4, f5, f6, f7, f8, f9⟩ := hinvF
  have hcover : rp < sF.startPos + sF.addedRows := by
    cases hfull : sF.windowFull with
    | true => exact (f9 hfull).1
    | false =>
      have hN : sF.totalRows = rows.length := by
        rcases hdone with hd | hd
        · rw [hfull] at hd; cases hd
        · exact hd
      have := f8 hfull
      omega
  have hsome : sF.window.rows[rp - sF.startPos]? = some rows[rp] := by
    rw [f6]
    rw [List.getElem?_take, if_pos (by omega)]
    rw [List.getElem?_drop]
    rw [show sF.startPos + (rp - sF.startPos) = rp by omega]
    rw [List.getElem?_eq_getElem hlt]
  exact List.getElem?_mem hsome

/-- C1 amended witness: three null rows against a one-row window with
`requiredPos = 2`: the restart policy leaves the window holding exactly the
required row. -/
theorem requiredPos_reachable_witness :
    [ColVal.nul] ∈ (nativeExecuteForCursorWindow
        ([[ColVal.nul], [ColVal.nul], [ColVal.nul]].map StepOutcome.row)
        ⟨2, 1, []⟩ 1 0 2 false noFaults).window.rows :=
  requiredPos_reachable [[ColVal.nul], [ColVal.nul], [ColVal.nul]]
    ⟨2, 1, []⟩ 1 0 2 false (by decide) (by decide) (by decide)

end SqliteLite
